import Mathlib

/-!
# Verification of the iptb node lifecycle manager

Shallow embedding of `util/localnode.go`, `util/localfilecoin.go` and
`util/node.go` from the `casebell/iptb` repository.

OS interactions (signal delivery, process liveness probes, file creation,
forking) are modelled by explicit environment records that the adversarial
OS provides, and by event traces recording the side effects the Go code
performs, in order.  Machine-level details that the claims depend on:

* `proc.Signal(syscall.Signal(0))` is the liveness probe: a `nil` error
  means the process is alive.  The probe outcomes over time are modelled
  by a function `alive : Nat → Bool`, indexed by a global probe counter
  (each probe the code performs consumes one tick).
* `os.Create` (Go standard library) "creates or truncates the named
  file"; it opens with `O_TRUNC`, never `O_APPEND`.  File creation events
  therefore carry a `FileMode.truncate` tag.
* The `defer` in `killPid` (localnode.go:263-268) removes the PID file on
  every return path reached after `os.FindProcess` succeeded, including
  the error returns for failed signal delivery.
-/

deriving instance DecidableEq for Except

/-- Mode with which a log file is opened: `os.Create` truncates,
`O_APPEND` would append. -/
inductive FileMode
  | truncate
  | append
deriving DecidableEq, Repr

/-- Observable side effects of the lifecycle manager, in program order. -/
inductive Ev
  /-- `p.Signal(syscall.SIGINT)` attempt. -/
  | sigint
  /-- `p.Signal(syscall.SIGQUIT)` attempt. -/
  | sigquit
  /-- `p.Signal(syscall.SIGKILL)` attempt. -/
  | sigkill
  /-- liveness probe `p.Signal(syscall.Signal(0))` at global tick `t`. -/
  | probe (t : Nat)
  /-- `os.Remove(filepath.Join(dir, "daemon.pid"))` from the defer in `killPid`. -/
  | rmPidFile
  /-- `os.Create(name)`: create-or-truncate of a log file. -/
  | createFile (name : String) (mode : FileMode)
  /-- `cmd.Start()`: fork of `bin` running subcommand `dcmd` with extra
  `args`, working directory `dir`, environment `env`, stdout/stderr
  redirected to the named files. -/
  | fork (bin : String) (dcmd : String) (args : List String) (dir : String)
      (env : List (List Char)) (stdout : String) (stderr : String)
  /-- `ioutil.WriteFile(dir/daemon.pid, pid)`. -/
  | writePid (pid : Int)
  /-- `time.Sleep(time.Millisecond * ms)`. -/
  | sleep (ms : Nat)
  /-- the `i`-th identity query `RunCmd("go-filecoin", "id", ...)`. -/
  | idQuery (i : Nat)
deriving DecidableEq, Repr

/-! ## Shutdown escalator: `killPid` and `waitProcess` (localnode.go:257-325) -/

/-- OS behaviour surrounding one `killPid` run.  `alive t` is the result
of the `t`-th liveness probe (`true` = signal 0 delivered, process
alive); the `...Err` flags say whether the corresponding signal delivery
returns an error. -/
structure KillEnv where
  findProcessErr : Bool
  sigintErr1 : Bool
  sigintErr2 : Bool
  sigquitErr : Bool
  sigkillErr : Bool
  alive : Nat → Bool

/-- `waitProcess(p, ms)` (localnode.go:316-325): up to `ms/10` iterations;
each probes, succeeding (returning `nil`) as soon as a probe shows the
process gone, sleeping 10 ms otherwise.  Returns (success flag, next
probe tick, probe events); recursion is on the remaining iteration count. -/
def waitProcessAux (alive : Nat → Bool) (t : Nat) : Nat → Bool × Nat × List Ev
  | 0 => (false, t, [])
  | n + 1 =>
    if alive t then
      let r := waitProcessAux alive (t + 1) n
      (r.1, r.2.1, Ev.probe t :: r.2.2)
    else (true, t + 1, [Ev.probe t])

/-- `waitProcess` with the Go `ms / 10` iteration bound. -/
def waitProcess (alive : Nat → Bool) (t ms : Nat) : Bool × Nat × List Ev :=
  waitProcessAux alive t (ms / 10)

/-- The final unbounded loop of `killPid` (localnode.go:305-311): probe,
break once a probe shows the process gone, sleep 10 ms otherwise.  The Go
loop has no bound; `fuel` makes the model total, `none` meaning the loop
is still running after `fuel` probes. -/
def killLoop (alive : Nat → Bool) (t : Nat) : Nat → Option Unit × List Ev
  | 0 => (none, [])
  | n + 1 =>
    if alive t then
      let r := killLoop alive (t + 1) n
      (r.1, Ev.probe t :: r.2)
    else (some (), [Ev.probe t])

/-- Go local `err = waitProcess(p, 1000)` after the first SIGINT:
probes start at tick 0. -/
def kw1 (env : KillEnv) : Bool × Nat × List Ev :=
  waitProcess env.alive 0 1000

/-- The second 1000 ms wait, resuming at the tick where the first wait
stopped probing. -/
def kw2 (env : KillEnv) : Bool × Nat × List Ev :=
  waitProcess env.alive (kw1 env).2.1 1000

/-- The 5000 ms wait after SIGQUIT. -/
def kw3 (env : KillEnv) : Bool × Nat × List Ev :=
  waitProcess env.alive (kw2 env).2.1 5000

/-- The final unbounded poll after SIGKILL. -/
def kkl (env : KillEnv) (fuel : Nat) : Option Unit × List Ev :=
  killLoop env.alive (kw3 env).2.1 fuel

/-- `killPid(pid, dir)` (localnode.go:257-314).  Result `none` models the
still-spinning final loop (fuel exhausted); `some r` models a return with
Go value `r`.  The deferred PID-file removal fires on every return after
`os.FindProcess` succeeded. -/
def killPid (env : KillEnv) (fuel : Nat) : Option (Except String Unit) × List Ev :=
  if env.findProcessErr then (some (.error "error killing daemon"), [])
  else if env.sigintErr1 then
    (some (.error "error killing daemon"), [Ev.sigint, Ev.rmPidFile])
  else if (kw1 env).1 then
    (some (.ok ()), Ev.sigint :: (kw1 env).2.2 ++ [Ev.rmPidFile])
  else if env.sigintErr2 then
    (some (.error "error killing daemon"),
      Ev.sigint :: (kw1 env).2.2 ++ [Ev.sigint, Ev.rmPidFile])
  else if (kw2 env).1 then
    (some (.ok ()),
      Ev.sigint :: (kw1 env).2.2 ++ Ev.sigint :: (kw2 env).2.2 ++ [Ev.rmPidFile])
  else if env.sigquitErr then
    (some (.error "error killing daemon"),
      Ev.sigint :: (kw1 env).2.2 ++ Ev.sigint :: (kw2 env).2.2 ++
        [Ev.sigquit, Ev.rmPidFile])
  else if (kw3 env).1 then
    (some (.ok ()),
      Ev.sigint :: (kw1 env).2.2 ++ Ev.sigint :: (kw2 env).2.2 ++
        Ev.sigquit :: (kw3 env).2.2 ++ [Ev.rmPidFile])
  else if env.sigkillErr then
    (some (.error "error killing daemon"),
      Ev.sigint :: (kw1 env).2.2 ++ Ev.sigint :: (kw2 env).2.2 ++
        Ev.sigquit :: (kw3 env).2.2 ++ [Ev.sigkill, Ev.rmPidFile])
  else
    match (kkl env fuel).1 with
    | none =>
      (none,
        Ev.sigint :: (kw1 env).2.2 ++ Ev.sigint :: (kw2 env).2.2 ++
          Ev.sigquit :: (kw3 env).2.2 ++ Ev.sigkill :: (kkl env fuel).2)
    | some () =>
      (some (.ok ()),
        Ev.sigint :: (kw1 env).2.2 ++ Ev.sigint :: (kw2 env).2.2 ++
          Ev.sigquit :: (kw3 env).2.2 ++ Ev.sigkill :: (kkl env fuel).2 ++
          [Ev.rmPidFile])

/-- `n` consecutive probe events starting at tick `t`. -/
def probes (t : Nat) : Nat → List Ev
  | 0 => []
  | n + 1 => Ev.probe t :: probes (t + 1) n

/-- A wait whose every probe sees the process alive times out after
exactly `n` probes. -/
theorem waitProcessAux_timeout (alive : Nat → Bool) :
    ∀ n t, (∀ j, j < n → alive (t + j) = true) →
      waitProcessAux alive t n = (false, t + n, probes t n) := by
  intro n
  induction n with
  | zero => intro t _; simp [waitProcessAux, probes]
  | succ m ih =>
    intro t h
    have h0 : alive t = true := by simpa using h 0 (Nat.succ_pos m)
    have hrest : ∀ j, j < m → alive (t + 1 + j) = true := by
      intro j hj
      have := h (j + 1) (by omega)
      simpa [Nat.add_assoc, Nat.add_comm 1 j] using this
    simp [waitProcessAux, h0, ih (t + 1) hrest, probes, Nat.add_assoc, Nat.add_comm 1 m]

/-- A wait whose `k`-th probe (k < bound) is the first to see the process
gone succeeds immediately after that probe. -/
theorem waitProcessAux_success (alive : Nat → Bool) :
    ∀ k n t, k < n → (∀ j, j < k → alive (t + j) = true) → alive (t + k) = false →
      waitProcessAux alive t n = (true, t + k + 1, probes t (k + 1)) := by
  intro k
  induction k with
  | zero =>
    intro n t hn _ hdead
    obtain ⟨m, rfl⟩ : ∃ m, n = m + 1 := ⟨n - 1, by omega⟩
    simp at hdead
    simp [waitProcessAux, hdead, probes]
  | succ k ih =>
    intro n t hn hlive hdead
    obtain ⟨m, rfl⟩ : ∃ m, n = m + 1 := ⟨n - 1, by omega⟩
    have h0 : alive t = true := by simpa using hlive 0 (Nat.succ_pos k)
    have hlive' : ∀ j, j < k → alive (t + 1 + j) = true := by
      intro j hj
      have := hlive (j + 1) (by omega)
      simpa [Nat.add_assoc, Nat.add_comm 1 j] using this
    have hdead' : alive (t + 1 + k) = false := by
      simpa [Nat.add_assoc, Nat.add_comm 1 k] using hdead
    have := ih m (t + 1) (by omega) hlive' hdead'
    simp [waitProcessAux, h0, this, probes, Nat.add_assoc, Nat.add_comm 1 k]

/-- The final kill-confirmation loop, given enough fuel, stops right
after the first probe that sees the process gone. -/
theorem killLoop_success (alive : Nat → Bool) :
    ∀ k n t, k < n → (∀ j, j < k → alive (t + j) = true) → alive (t + k) = false →
      killLoop alive t n = (some (), probes t (k + 1)) := by
  intro k
  induction k with
  | zero =>
    intro n t hn _ hdead
    obtain ⟨m, rfl⟩ : ∃ m, n = m + 1 := ⟨n - 1, by omega⟩
    simp at hdead
    simp [killLoop, hdead, probes]
  | succ k ih =>
    intro n t hn hlive hdead
    obtain ⟨m, rfl⟩ : ∃ m, n = m + 1 := ⟨n - 1, by omega⟩
    have h0 : alive t = true := by simpa using hlive 0 (Nat.succ_pos k)
    have hlive' : ∀ j, j < k → alive (t + 1 + j) = true := by
      intro j hj
      have := hlive (j + 1) (by omega)
      simpa [Nat.add_assoc, Nat.add_comm 1 j] using this
    have hdead' : alive (t + 1 + k) = false := by
      simpa [Nat.add_assoc, Nat.add_comm 1 k] using hdead
    have := ih m (t + 1) (by omega) hlive' hdead'
    simp [killLoop, h0, this, probes]

/-- C1: a kill operation sends interrupt, then after a timed-out 1000 ms
wait (100 probes, 10 ms apart) interrupt again, then after another such
wait quit with a 5000 ms wait (500 probes), then an unconditional kill
followed by an unbounded 10 ms poll; it succeeds as soon as any liveness
probe shows the process gone, sending none of the remaining signals.
`k` is the index of the first probe that finds the process dead; the four
conjuncts cover death during each of the four waits. -/
theorem killPid_escalation (env : KillEnv) (fuel k : Nat)
    (hfp : env.findProcessErr = false)
    (h1 : env.sigintErr1 = false) (h2 : env.sigintErr2 = false)
    (hq : env.sigquitErr = false) (hk : env.sigkillErr = false)
    (hlive : ∀ j, j < k → env.alive j = true) (hdead : env.alive k = false) :
    (k < 100 →
      killPid env fuel = (some (.ok ()), Ev.sigint :: probes 0 (k + 1) ++ [Ev.rmPidFile])) ∧
    (100 ≤ k → k < 200 →
      killPid env fuel = (some (.ok ()),
        Ev.sigint :: probes 0 100 ++ Ev.sigint :: probes 100 (k - 100 + 1) ++
          [Ev.rmPidFile])) ∧
    (200 ≤ k → k < 700 →
      killPid env fuel = (some (.ok ()),
        Ev.sigint :: probes 0 100 ++ Ev.sigint :: probes 100 100 ++
          Ev.sigquit :: probes 200 (k - 200 + 1) ++ [Ev.rmPidFile])) ∧
    (700 ≤ k → k - 700 < fuel →
      killPid env fuel = (some (.ok ()),
        Ev.sigint :: probes 0 100 ++ Ev.sigint :: probes 100 100 ++
          Ev.sigquit :: probes 200 500 ++ Ev.sigkill :: probes 700 (k - 700 + 1) ++
          [Ev.rmPidFile])) := by
  refine ⟨?_, ?_, ?_, ?_⟩
  · intro hA
    have hw1 := waitProcessAux_success env.alive k 100 0 hA
      (by intro j hj; simpa using hlive j hj) (by simpa using hdead)
    simp [killPid, kw1, waitProcess, hfp, h1, hw1]
  · intro hB1 hB2
    obtain ⟨m, rfl⟩ : ∃ m, k = 100 + m := ⟨k - 100, by omega⟩
    have hw1 := waitProcessAux_timeout env.alive 100 0
      (by intro j hj; simpa using hlive j (by omega))
    have hw2 := waitProcessAux_success env.alive m 100 100 (by omega)
      (by intro j hj; exact hlive (100 + j) (by omega)) hdead
    simp [killPid, kw1, kw2, waitProcess, hfp, h1, h2, hw1, hw2]
  · intro hC1 hC2
    obtain ⟨m, rfl⟩ : ∃ m, k = 200 + m := ⟨k - 200, by omega⟩
    have hw1 := waitProcessAux_timeout env.alive 100 0
      (by intro j hj; simpa using hlive j (by omega))
    have hw2 := waitProcessAux_timeout env.alive 100 100
      (by intro j hj; exact hlive (100 + j) (by omega))
    have hw3 := waitProcessAux_success env.alive m 500 200 (by omega)
      (by intro j hj; exact hlive (200 + j) (by omega)) hdead
    simp [killPid, kw1, kw2, kw3, waitProcess, hfp, h1, h2, hq, hw1, hw2, hw3]
  · intro hD1 hD2
    obtain ⟨m, rfl⟩ : ∃ m, k = 700 + m := ⟨k - 700, by omega⟩
    have hw1 := waitProcessAux_timeout env.alive 100 0
      (by intro j hj; simpa using hlive j (by omega))
    have hw2 := waitProcessAux_timeout env.alive 100 100
      (by intro j hj; exact hlive (100 + j) (by omega))
    have hw3 := waitProcessAux_timeout env.alive 500 200
      (by intro j hj; exact hlive (200 + j) (by omega))
    have hkl := killLoop_success env.alive m fuel 700 (by omega)
      (by intro j hj; exact hlive (700 + j) (by omega)) hdead
    simp [killPid, kw1, kw2, kw3, kkl, waitProcess, hfp, h1, h2, hq, hk, hw1, hw2, hw3, hkl]

/-- Concrete OS behaviour for witnesses: the process dies at the fourth
probe (tick 3), all signal deliveries succeed. -/
def killEnvW : KillEnv :=
  { findProcessErr := false, sigintErr1 := false, sigintErr2 := false,
    sigquitErr := false, sigkillErr := false, alive := fun t => decide (t < 3) }

/-- Witness for `killPid_escalation`: a process that dies at probe 3
is fully handled by the first interrupt. -/
theorem killPid_escalation_witness :
    killPid killEnvW 5 = (some (.ok ()),
      [Ev.sigint, Ev.probe 0, Ev.probe 1, Ev.probe 2, Ev.probe 3, Ev.rmPidFile]) := by
  have h := (killPid_escalation killEnvW 5 3 rfl rfl rfl rfl rfl
      (by intro j hj; simp [killEnvW]; omega) (by simp [killEnvW])).1 (by omega)
  simpa [probes] using h

/-- A wait that succeeded (returned `nil`) saw some probe report the
process gone. -/
theorem waitProcessAux_dead_probe (alive : Nat → Bool) :
    ∀ n t, (waitProcessAux alive t n).1 = true →
      ∃ u, Ev.probe u ∈ (waitProcessAux alive t n).2.2 ∧ alive u = false := by
  intro n
  induction n with
  | zero => intro t h; simp [waitProcessAux] at h
  | succ m ih =>
    intro t h
    by_cases ha : alive t = true
    · simp only [waitProcessAux, ha, if_true] at h ⊢
      obtain ⟨u, hu1, hu2⟩ := ih (t + 1) h
      exact ⟨u, by simp [hu1], hu2⟩
    · have ha' : alive t = false := by simpa using ha
      exact ⟨t, by simp [waitProcessAux, ha'], ha'⟩

/-- A finished final loop saw some probe report the process gone. -/
theorem killLoop_dead_probe (alive : Nat → Bool) :
    ∀ n t, (killLoop alive t n).1 = some () →
      ∃ u, Ev.probe u ∈ (killLoop alive t n).2 ∧ alive u = false := by
  intro n
  induction n with
  | zero => intro t h; simp [killLoop] at h
  | succ m ih =>
    intro t h
    by_cases ha : alive t = true
    · simp only [killLoop, ha, if_true] at h ⊢
      obtain ⟨u, hu1, hu2⟩ := ih (t + 1) h
      exact ⟨u, by simp [hu1], hu2⟩
    · have ha' : alive t = false := by simpa using ha
      exact ⟨t, by simp [killLoop, ha'], ha'⟩

/-- C2 (amended): the PID file is removed on *every* return of `killPid`
reached after the process handle was obtained — successful stops and
signal-delivery failures alike (the deferred remove); it stays in place
only when `os.FindProcess` itself fails.  On a successful stop, some
liveness probe did confirm the process gone. -/
theorem killPid_pidfile_removal (env : KillEnv) (fuel : Nat) :
    (env.findProcessErr = true →
      killPid env fuel = (some (.error "error killing daemon"), [])) ∧
    (env.findProcessErr = false →
      ∀ r tr, killPid env fuel = (some r, tr) → Ev.rmPidFile ∈ tr) ∧
    (env.findProcessErr = false →
      ∀ tr, killPid env fuel = (some (.ok ()), tr) →
        ∃ u, Ev.probe u ∈ tr ∧ env.alive u = false) := by
  refine ⟨?_, ?_, ?_⟩
  · intro hfp
    simp [killPid, hfp]
  · intro hfp r tr h
    rw [killPid] at h
    cases hs1 : env.sigintErr1 with
    | true =>
      simp [hfp, hs1] at h
      simp [← h.2]
    | false =>
      cases hw1 : (kw1 env).1 with
      | true =>
        simp [hfp, hs1, hw1] at h
        simp [← h.2]
      | false =>
        cases hs2 : env.sigintErr2 with
        | true =>
          simp [hfp, hs1, hw1, hs2] at h
          simp [← h.2]
        | false =>
          cases hw2 : (kw2 env).1 with
          | true =>
            simp [hfp, hs1, hw1, hs2, hw2] at h
            simp [← h.2]
          | false =>
            cases hsq : env.sigquitErr with
            | true =>
              simp [hfp, hs1, hw1, hs2, hw2, hsq] at h
              simp [← h.2]
            | false =>
              cases hw3 : (kw3 env).1 with
              | true =>
                simp [hfp, hs1, hw1, hs2, hw2, hsq, hw3] at h
                simp [← h.2]
              | false =>
                cases hsk : env.sigkillErr with
                | true =>
                  simp [hfp, hs1, hw1, hs2, hw2, hsq, hw3, hsk] at h
                  simp [← h.2]
                | false =>
                  cases hkl : (kkl env fuel).1 with
                  | none =>
                    simp [hfp, hs1, hw1, hs2, hw2, hsq, hw3, hsk, hkl] at h
                  | some u =>
                    cases u
                    simp [hfp, hs1, hw1, hs2, hw2, hsq, hw3, hsk, hkl] at h
                    simp [← h.2]
  · intro hfp tr h
    rw [killPid] at h
    cases hs1 : env.sigintErr1 with
    | true => simp [hfp, hs1] at h
    | false =>
      cases hw1 : (kw1 env).1 with
      | true =>
        simp [hfp, hs1, hw1] at h
        obtain ⟨u, hu1, hu2⟩ := waitProcessAux_dead_probe env.alive 100 0
          (by simpa [kw1, waitProcess] using hw1)
        refine ⟨u, ?_, hu2⟩
        simp [← h, kw1, waitProcess, hu1]
      | false =>
        cases hs2 : env.sigintErr2 with
        | true => simp [hfp, hs1, hw1, hs2] at h
        | false =>
          cases hw2 : (kw2 env).1 with
          | true =>
            simp [hfp, hs1, hw1, hs2, hw2] at h
            obtain ⟨u, hu1, hu2⟩ := waitProcessAux_dead_probe env.alive 100 ((kw1 env).2.1)
              (by simpa [kw2, waitProcess] using hw2)
            refine ⟨u, ?_, hu2⟩
            simp [← h, kw2, waitProcess, hu1]
          | false =>
            cases hsq : env.sigquitErr with
            | true => simp [hfp, hs1, hw1, hs2, hw2, hsq] at h
            | false =>
              cases hw3 : (kw3 env).1 with
              | true =>
                simp [hfp, hs1, hw1, hs2, hw2, hsq, hw3] at h
                obtain ⟨u, hu1, hu2⟩ := waitProcessAux_dead_probe env.alive 500 ((kw2 env).2.1)
                  (by simpa [kw3, waitProcess] using hw3)
                refine ⟨u, ?_, hu2⟩
                simp [← h, kw3, waitProcess, hu1]
              | false =>
                cases hsk : env.sigkillErr with
                | true => simp [hfp, hs1, hw1, hs2, hw2, hsq, hw3, hsk] at h
                | false =>
                  cases hkl : (kkl env fuel).1 with
                  | none =>
                    simp [hfp, hs1, hw1, hs2, hw2, hsq, hw3, hsk, hkl] at h
                  | some u =>
                    cases u
                    simp [hfp, hs1, hw1, hs2, hw2, hsq, hw3, hsk, hkl] at h
                    obtain ⟨u, hu1, hu2⟩ := killLoop_dead_probe env.alive fuel ((kw3 env).2.1)
                      (by simpa [kkl] using hkl)
                    refine ⟨u, ?_, hu2⟩
                    simp [← h, kkl, hu1]

/-- OS behaviour refuting the original C2: the first interrupt delivery
fails (e.g. the process vanished between probe and signal). -/
def killEnvSigErr : KillEnv :=
  { findProcessErr := false, sigintErr1 := true, sigintErr2 := false,
    sigquitErr := false, sigkillErr := false, alive := fun _ => true }

/-- C2 counterexample: when kill fails with a signal-delivery error, the
PID file is *not* left in place — the deferred remove still deletes it,
and no liveness probe ever confirmed the process gone. -/
theorem killPid_pidfile_counterexample :
    killPid killEnvSigErr 1 =
      (some (.error "error killing daemon"), [Ev.sigint, Ev.rmPidFile]) ∧
    Ev.rmPidFile ∈ (killPid killEnvSigErr 1).2 := by
  exact ⟨rfl, by simp [killPid, killEnvSigErr]⟩

/-- Witness for `killPid_pidfile_removal` at the concrete failing-signal
environment. -/
theorem killPid_pidfile_removal_witness :
    Ev.rmPidFile ∈ (killPid killEnvSigErr 1).2 :=
  (killPid_pidfile_removal killEnvSigErr 1).2.1 rfl (.error "error killing daemon")
    (killPid killEnvSigErr 1).2 (by rfl)

/-! ## Liveness prober: `getPID` and `isAlive` (localnode.go:219-246) -/

/-- `strconv.Atoi` digit loop: consume decimal digits, fail on anything
else. -/
def atoiDigits (acc : Nat) : List Char → Option Nat
  | [] => some acc
  | c :: cs => if c.isDigit then atoiDigits (acc * 10 + (c.toNat - '0'.toNat)) cs else none

/-- `strconv.Atoi(string(b))`: an optional sign followed by at least one
decimal digit; anything else (the empty string included) is an error,
modelled as `none`. -/
def atoi : List Char → Option Int
  | [] => none
  | '+' :: cs => if cs.isEmpty then none else (atoiDigits 0 cs).map (fun n => (n : Int))
  | '-' :: cs => if cs.isEmpty then none else (atoiDigits 0 cs).map (fun n => -(n : Int))
  | cs => (atoiDigits 0 cs).map (fun n => (n : Int))

/-- Outcome of `ioutil.ReadFile(dir/daemon.pid)`: the file is absent
(`os.IsNotExist`), unreadable for another reason, or readable with the
given content (a byte string, modelled as `List Char`). -/
inductive PidRead
  | notExist
  | readErr
  | ok (s : List Char)
deriving DecidableEq, Repr

/-- Outcome of the zero-effect probe `proc.Signal(syscall.Signal(0))`:
delivered (`ok`), refused for permissions (`eperm`, process exists), or
no such process (`esrch`). -/
inductive ProbeRes
  | ok
  | eperm
  | esrch
deriving DecidableEq, Repr

/-- OS behaviour surrounding one `isAlive` call. -/
structure AliveEnv where
  pidRead : PidRead
  findProcessErr : Bool
  probeRes : ProbeRes
deriving DecidableEq, Repr

/-- Result of `getPID(dir)` (localnode.go:219-226): a read error is
passed through; otherwise `strconv.Atoi` (modelled by `atoi`) parses the
content. -/
inductive GetPIDRes
  | notExistErr
  | otherErr
  | parseErr
  | ok (pid : Int)
deriving DecidableEq, Repr

/-- `getPID(dir)` (localnode.go:219-226). -/
def getPID (pr : PidRead) : GetPIDRes :=
  match pr with
  | .notExist => .notExistErr
  | .readErr => .otherErr
  | .ok s =>
    match atoi s with
    | none => .parseErr
    | some n => .ok n

/-- `isAlive(dir)` (localnode.go:228-246).  A missing PID file yields
`(false, nil)`; other read errors and parse errors are returned as
errors; a `FindProcess` error yields `(false, nil)`; otherwise the
process counts as alive exactly when the zero-signal probe returns `nil`
— any probe error, EPERM included, yields `(false, nil)`. -/
def isAlive (env : AliveEnv) : Except String Bool :=
  match getPID env.pidRead with
  | .notExistErr => .ok false
  | .otherErr => .error "error reading pid file"
  | .parseErr => .error "error parsing pid file"
  | .ok _pid =>
    if env.findProcessErr then .ok false
    else
      match env.probeRes with
      | .ok => .ok true
      | .eperm => .ok false
      | .esrch => .ok false

/-- C3 (amended): `isAlive` returns false without error when the PID
file is absent; an error when it is present but unreadable or
unparsable; and otherwise probes the parsed PID with a zero-effect
signal, counting the process as alive exactly when the probe is
delivered — a probe refused for permissions counts as NOT alive, just
like an absent process. -/
theorem isAlive_spec (env : AliveEnv) :
    (env.pidRead = .notExist → isAlive env = .ok false) ∧
    (env.pidRead = .readErr → isAlive env = .error "error reading pid file") ∧
    (∀ s, env.pidRead = .ok s → atoi s = none →
      isAlive env = .error "error parsing pid file") ∧
    (∀ s pid, env.pidRead = .ok s → atoi s = some pid → env.findProcessErr = false →
      env.probeRes = .ok → isAlive env = .ok true) ∧
    (∀ s pid, env.pidRead = .ok s → atoi s = some pid → env.findProcessErr = false →
      env.probeRes ≠ .ok → isAlive env = .ok false) := by
  refine ⟨?_, ?_, ?_, ?_, ?_⟩
  · intro h; simp [isAlive, getPID, h]
  · intro h; simp [isAlive, getPID, h]
  · intro s h hp; simp [isAlive, getPID, h, hp]
  · intro s pid h hp hfp hpr; simp [isAlive, getPID, h, hp, hfp, hpr]
  · intro s pid h hp hfp hpr
    cases hc : env.probeRes with
    | ok => exact absurd hc hpr
    | eperm => simp [isAlive, getPID, h, hp, hfp, hc]
    | esrch => simp [isAlive, getPID, h, hp, hfp, hc]

/-- The probe-refused-for-permissions environment: PID file readable and
parsable, `FindProcess` fine, probe answers EPERM (process exists but
cannot be signalled). -/
def aliveEnvEperm : AliveEnv :=
  { pidRead := .ok ("123").toList, findProcessErr := false, probeRes := .eperm }

/-- C3 counterexample: a process that exists but cannot be signalled due
to permissions is reported as NOT alive by the code, while the claim
says presence under EPERM counts as alive. -/
theorem isAlive_eperm_counterexample :
    isAlive aliveEnvEperm = .ok false ∧ aliveEnvEperm.probeRes = ProbeRes.eperm := by
  refine ⟨?_, rfl⟩
  have hp : atoi ['1', '2', '3'] = some 123 := by decide
  simp [isAlive, getPID, aliveEnvEperm, hp]

/-- Witness for `isAlive_spec`: absent PID file gives `(false, nil)`. -/
theorem isAlive_spec_witness :
    isAlive { pidRead := .notExist, findProcessErr := false, probeRes := .esrch } =
      .ok false :=
  (isAlive_spec _).1 rfl

/-! ## Environment builder (localnode.go:132-145, localfilecoin.go:25-38)

Environment entries are byte strings, modelled as `List Char`; the Go key
extraction `strings.Split(e, "=")[0]` is the prefix of the entry before
the first `'='`. -/

/-- One `k=v` environment entry. -/
abbrev EnvEntry := List Char

/-- `strings.Split(e, "=")[0]`: everything before the first `'='`. -/
def envKey (e : EnvEntry) : EnvEntry := e.takeWhile (fun c => c != '=')

/-- The common loop of both `envForDaemon`s: scan the environment; on
the first entry whose key matches, replace it with `npath` and return
the rest unchanged; if no entry matches, append `onMiss` at the end
(Go `append(envs, npath)` resp. `append(envs, npath, "FIL_API="+port)`). -/
def envUpdate (key npath : EnvEntry) (onMiss : List EnvEntry) :
    List EnvEntry → List EnvEntry
  | [] => onMiss
  | e :: rest =>
    if envKey e == key then npath :: rest
    else e :: envUpdate key npath onMiss rest

/-- `LocalNode` (localnode.go:24-27). -/
structure LocalNode where
  Dir : String
  PeerID : String
deriving DecidableEq, Repr

/-- `(*LocalNode).envForDaemon` (localnode.go:132-145), as a pure
function of the inherited `os.Environ()` list. -/
def LocalNode.envForDaemon (n : LocalNode) (environ : List EnvEntry) : List EnvEntry :=
  let npath := ("IPFS_PATH=").toList ++ n.Dir.toList
  envUpdate ("IPFS_PATH").toList npath [npath] environ

/-- `FilecoinNode` (localfilecoin.go:15-19). -/
structure FilecoinNode where
  Dir : String
  PeerID : String
  ApiPort : String
deriving DecidableEq, Repr

/-- `(*FilecoinNode).envForDaemon` (localfilecoin.go:25-38): same scan
for `FIL_PATH`, but on a miss it appends both `FIL_PATH` and `FIL_API`. -/
def FilecoinNode.envForDaemon (fn : FilecoinNode) (environ : List EnvEntry) : List EnvEntry :=
  let npath := ("FIL_PATH=").toList ++ fn.Dir.toList
  envUpdate ("FIL_PATH").toList npath
    [npath, ("FIL_API=").toList ++ fn.ApiPort.toList] environ

/-- Number of entries of an environment whose key is `key`. -/
def countKey (key : EnvEntry) : List EnvEntry → Nat
  | [] => 0
  | e :: rest => (if envKey e == key then 1 else 0) + countKey key rest

theorem countKey_append (key : EnvEntry) (l m : List EnvEntry) :
    countKey key (l ++ m) = countKey key l + countKey key m := by
  induction l with
  | nil => simp [countKey]
  | cons a rest ih => simp [countKey, ih]; omega

/-- When no entry matches, the scan falls off the end and appends. -/
theorem envUpdate_no_key (key npath : EnvEntry) (onMiss : List EnvEntry) :
    ∀ l, countKey key l = 0 → envUpdate key npath onMiss l = l ++ onMiss := by
  intro l
  induction l with
  | nil => intro _; simp [envUpdate]
  | cons e rest ih =>
    intro h
    cases hk : (envKey e == key) with
    | true => simp [countKey, hk] at h
    | false =>
      simp [countKey, hk] at h
      simp [envUpdate, hk, ih h]

/-- The scan replaces the first matching entry in place. -/
theorem envUpdate_found (key npath : EnvEntry) (onMiss : List EnvEntry) :
    ∀ pre e post, countKey key pre = 0 → (envKey e == key) = true →
      envUpdate key npath onMiss (pre ++ e :: post) = pre ++ npath :: post := by
  intro pre
  induction pre with
  | nil => intro e post _ hk; simp [envUpdate, hk]
  | cons a pre ih =>
    intro e post h hk
    cases hak : (envKey a == key) with
    | true => simp [countKey, hak] at h
    | false =>
      simp [countKey, hak] at h
      simp [envUpdate, hak, ih e post h hk]

/-- An environment with a matching entry splits around the first match. -/
theorem countKey_pos_split (key : EnvEntry) :
    ∀ l, 0 < countKey key l → ∃ pre e post, l = pre ++ e :: post ∧
      countKey key pre = 0 ∧ (envKey e == key) = true := by
  intro l
  induction l with
  | nil => intro h; simp [countKey] at h
  | cons a rest ih =>
    intro h
    cases hak : (envKey a == key) with
    | true => exact ⟨[], a, rest, by simp, by simp [countKey], hak⟩
    | false =>
      simp [countKey, hak] at h
      obtain ⟨pre, e, post, rfl, h1, h2⟩ := ih (by omega)
      exact ⟨a :: pre, e, post, by simp, by simp [countKey, hak, h1], h2⟩

theorem countKey_cons_match (key e : EnvEntry) (rest : List EnvEntry)
    (h : (envKey e == key) = true) :
    countKey key (e :: rest) = 1 + countKey key rest := by
  simp [countKey, h]

theorem countKey_cons_miss (key e : EnvEntry) (rest : List EnvEntry)
    (h : (envKey e == key) = false) :
    countKey key (e :: rest) = countKey key rest := by
  simp [countKey, h]

/-- The key of a freshly built `IPFS_PATH=dir` entry is `IPFS_PATH`,
whatever the directory. -/
theorem envKey_ipfs (d : List Char) :
    envKey (("IPFS_PATH=").toList ++ d) = ("IPFS_PATH").toList := rfl

/-- The key of a freshly built `FIL_PATH=dir` entry is `FIL_PATH`. -/
theorem envKey_fil (d : List Char) :
    envKey (("FIL_PATH=").toList ++ d) = ("FIL_PATH").toList := rfl

/-- C5 (amended): for every data directory and every base environment in
which the data-directory variable occurs *at most once*, the rebuilt
environment contains `IPFS_PATH` exactly once, bound to the node
directory: an existing occurrence is replaced in place (same length,
surrounding entries untouched), otherwise the variable is appended.
With a duplicated key in the base the loop replaces only the first
occurrence — see the counterexample. -/
theorem envForDaemon_unique (n : LocalNode) (environ : List EnvEntry)
    (hbase : countKey ("IPFS_PATH").toList environ ≤ 1) :
    countKey ("IPFS_PATH").toList (n.envForDaemon environ) = 1 ∧
    (("IPFS_PATH=").toList ++ n.Dir.toList) ∈ n.envForDaemon environ ∧
    (countKey ("IPFS_PATH").toList environ = 0 →
      n.envForDaemon environ = environ ++ [("IPFS_PATH=").toList ++ n.Dir.toList]) ∧
    (countKey ("IPFS_PATH").toList environ = 1 →
      ∃ pre e post, environ = pre ++ e :: post ∧
        (envKey e == ("IPFS_PATH").toList) = true ∧
        n.envForDaemon environ =
          pre ++ (("IPFS_PATH=").toList ++ n.Dir.toList) :: post ∧
        (n.envForDaemon environ).length = environ.length) := by
  have hdef : n.envForDaemon environ = envUpdate (("IPFS_PATH").toList)
      (("IPFS_PATH=").toList ++ n.Dir.toList)
      [("IPFS_PATH=").toList ++ n.Dir.toList] environ := rfl
  have hknp : (envKey (("IPFS_PATH=").toList ++ n.Dir.toList) ==
      ("IPFS_PATH").toList) = true := by
    rw [envKey_ipfs]; exact beq_self_eq_true _
  have hcases : countKey ("IPFS_PATH").toList environ = 0 ∨
      countKey ("IPFS_PATH").toList environ = 1 := by omega
  rcases hcases with h0 | h1
  · have hout := envUpdate_no_key ("IPFS_PATH").toList
      (("IPFS_PATH=").toList ++ n.Dir.toList)
      [("IPFS_PATH=").toList ++ n.Dir.toList] environ h0
    refine ⟨?_, ?_, ?_, ?_⟩
    · rw [hdef, hout, countKey_append, h0, countKey_cons_match _ _ _ hknp]
      rfl
    · rw [hdef, hout]; simp
    · intro _; rw [hdef, hout]
    · intro hcontra; omega
  · obtain ⟨pre, e, post, rfl, hpre, he⟩ :=
      countKey_pos_split ("IPFS_PATH").toList environ (by omega)
    have hout := envUpdate_found ("IPFS_PATH").toList
      (("IPFS_PATH=").toList ++ n.Dir.toList)
      [("IPFS_PATH=").toList ++ n.Dir.toList] pre e post hpre he
    have hpost : countKey ("IPFS_PATH").toList post = 0 := by
      rw [countKey_append, hpre, countKey_cons_match _ _ _ he] at h1
      omega
    refine ⟨?_, ?_, ?_, ?_⟩
    · rw [hdef, hout, countKey_append, hpre, countKey_cons_match _ _ _ hknp, hpost]
    · rw [hdef, hout]; simp
    · intro hcontra; omega
    · intro _
      exact ⟨pre, e, post, rfl, he, by rw [hdef, hout], by rw [hdef, hout]; simp⟩

/-- C5 counterexample: a base environment carrying `IPFS_PATH` twice.
The loop replaces only the first occurrence and returns, so the rebuilt
environment still contains two `IPFS_PATH` entries, the second with the
stale value — the claimed "appears exactly once" fails for this base. -/
theorem envForDaemon_duplicate_counterexample :
    countKey ("IPFS_PATH").toList
      ((LocalNode.mk "/new" "").envForDaemon
        [("IPFS_PATH=a").toList, ("IPFS_PATH=b").toList]) = 2 ∧
    ("IPFS_PATH=b").toList ∈
      (LocalNode.mk "/new" "").envForDaemon
        [("IPFS_PATH=a").toList, ("IPFS_PATH=b").toList] := by
  constructor <;> decide

/-- Witness for `envForDaemon_unique`: a single stale occurrence is
rebuilt into exactly one occurrence. -/
theorem envForDaemon_unique_witness :
    countKey ("IPFS_PATH").toList
      ((LocalNode.mk "/x" "").envForDaemon [("IPFS_PATH=old").toList]) = 1 :=
  (envForDaemon_unique (LocalNode.mk "/x" "") [("IPFS_PATH=old").toList] (by decide)).1

/-- C10: the Filecoin environment builder appends `FIL_API` only on the
branch where `FIL_PATH` is absent from the base environment; when
`FIL_PATH` is already present the first occurrence is replaced in place
and no `FIL_API` entry is added (same length, same number of `FIL_API`
entries as the base). -/
theorem filecoin_envForDaemon_api (fn : FilecoinNode) (environ : List EnvEntry) :
    (countKey ("FIL_PATH").toList environ = 0 →
      fn.envForDaemon environ = environ ++
        [("FIL_PATH=").toList ++ fn.Dir.toList,
         ("FIL_API=").toList ++ fn.ApiPort.toList]) ∧
    (0 < countKey ("FIL_PATH").toList environ →
      countKey ("FIL_API").toList (fn.envForDaemon environ) =
        countKey ("FIL_API").toList environ ∧
      (fn.envForDaemon environ).length = environ.length) := by
  have hdef : fn.envForDaemon environ = envUpdate (("FIL_PATH").toList)
      (("FIL_PATH=").toList ++ fn.Dir.toList)
      [("FIL_PATH=").toList ++ fn.Dir.toList,
       ("FIL_API=").toList ++ fn.ApiPort.toList] environ := rfl
  constructor
  · intro h0
    rw [hdef, envUpdate_no_key _ _ _ environ h0]
  · intro hpos
    obtain ⟨pre, e, post, rfl, hpre, he⟩ :=
      countKey_pos_split ("FIL_PATH").toList environ hpos
    rw [hdef, envUpdate_found _ _ _ pre e post hpre he]
    have h1 : (envKey (("FIL_PATH=").toList ++ fn.Dir.toList) ==
        ("FIL_API").toList) = false := by
      rw [envKey_fil]; decide
    have h2 : (envKey e == ("FIL_API").toList) = false := by
      rw [eq_of_beq he]; decide
    constructor
    · rw [countKey_append, countKey_append,
        countKey_cons_miss _ _ _ h1, countKey_cons_miss _ _ _ h2]
    · simp

/-- Witness for `filecoin_envForDaemon_api`: an empty base environment
gets both `FIL_PATH` and `FIL_API` appended. -/
theorem filecoin_envForDaemon_api_witness :
    (FilecoinNode.mk "/n" "" "1234").envForDaemon [] =
      [("FIL_PATH=").toList ++ ("/n" : String).toList,
       ("FIL_API=").toList ++ ("1234" : String).toList] :=
  (filecoin_envForDaemon_api (FilecoinNode.mk "/n" "" "1234") []).1 rfl

/-! ## Process launcher: `startProcess` (localnode.go:174-217) -/

/-- OS behaviour surrounding one `startProcess` run: the liveness
precheck environment, failure flags for the two `os.Create` calls,
`cmd.Start()` and the PID-file write, and the child PID handed out on a
successful fork. -/
structure StartEnv where
  aliveEnv : AliveEnv
  createStdoutErr : Bool
  createStderrErr : Bool
  startErr : Bool
  pid : Int
  writePidErr : Bool

/-- `startProcess(bin, dcmd, args, dir, env)` (localnode.go:174-217):
liveness precheck, then create-or-truncate the two log files, fork with
working directory `dir`, environment `env` and redirected stdout/stderr,
and persist the child PID.  (`setupOpt(cmd)` only tweaks platform
process attributes and has no further observable effect modelled here.) -/
def startProcess (bin dcmd : String) (args : List String) (dir : String)
    (env : List EnvEntry) (se : StartEnv) : Except String Unit × List Ev :=
  match isAlive se.aliveEnv with
  | .error e => (.error e, [])
  | .ok true => (.error "node is already running", [])
  | .ok false =>
    if se.createStdoutErr then (.error "create stdout failed", [])
    else if se.createStderrErr then
      (.error "create stderr failed",
        [Ev.createFile (dir ++ "/daemon.stdout") .truncate])
    else if se.startErr then
      (.error "start failed",
        [Ev.createFile (dir ++ "/daemon.stdout") .truncate,
         Ev.createFile (dir ++ "/daemon.stderr") .truncate])
    else if se.writePidErr then
      (.error "write pid failed",
        [Ev.createFile (dir ++ "/daemon.stdout") .truncate,
         Ev.createFile (dir ++ "/daemon.stderr") .truncate,
         Ev.fork bin dcmd args dir env (dir ++ "/daemon.stdout") (dir ++ "/daemon.stderr")])
    else
      (.ok (),
        [Ev.createFile (dir ++ "/daemon.stdout") .truncate,
         Ev.createFile (dir ++ "/daemon.stderr") .truncate,
         Ev.fork bin dcmd args dir env (dir ++ "/daemon.stdout") (dir ++ "/daemon.stderr"),
         Ev.writePid se.pid])

/-- A successful `startProcess` performed exactly: truncate-create of
both log files, the fork, and the PID-file write, in that order. -/
theorem startProcess_ok_trace (bin dcmd : String) (args : List String)
    (dir : String) (env : List EnvEntry) (se : StartEnv)
    (h : (startProcess bin dcmd args dir env se).1 = .ok ()) :
    startProcess bin dcmd args dir env se = (.ok (),
      [Ev.createFile (dir ++ "/daemon.stdout") .truncate,
       Ev.createFile (dir ++ "/daemon.stderr") .truncate,
       Ev.fork bin dcmd args dir env (dir ++ "/daemon.stdout") (dir ++ "/daemon.stderr"),
       Ev.writePid se.pid]) := by
  cases hA : isAlive se.aliveEnv with
  | error e => rw [startProcess] at h ⊢; simp [hA] at h
  | ok b =>
    cases b with
    | true => rw [startProcess] at h ⊢; simp [hA] at h
    | false =>
      cases h1 : se.createStdoutErr with
      | true => rw [startProcess] at h ⊢; simp [hA, h1] at h
      | false =>
        cases h2 : se.createStderrErr with
        | true => rw [startProcess] at h ⊢; simp [hA, h1, h2] at h
        | false =>
          cases h3 : se.startErr with
          | true => rw [startProcess] at h ⊢; simp [hA, h1, h2, h3] at h
          | false =>
            cases h4 : se.writePidErr with
            | true => rw [startProcess] at h ⊢; simp [hA, h1, h2, h3, h4] at h
            | false => rw [startProcess]; simp [hA, h1, h2, h3, h4]

/-- C4: starting while the liveness probe reports a live process fails
with the already-running error before any side effect — the trace is
empty, so no log file is created, no fork happens and the PID file is
not touched. -/
theorem startProcess_already_running (bin dcmd : String) (args : List String)
    (dir : String) (env : List EnvEntry) (se : StartEnv)
    (halive : isAlive se.aliveEnv = .ok true) :
    startProcess bin dcmd args dir env se = (.error "node is already running", []) := by
  rw [startProcess, halive]

/-- OS behaviour for witnesses: the node is not running (no PID file)
and every launch step succeeds, handing out PID 42. -/
def seOk : StartEnv :=
  { aliveEnv := { pidRead := .notExist, findProcessErr := false, probeRes := .esrch },
    createStdoutErr := false, createStderrErr := false, startErr := false,
    pid := 42, writePidErr := false }

/-- OS behaviour for witnesses: the PID file names process 12 and the
zero-signal probe reaches it, so the node counts as running. -/
def seAlive : StartEnv :=
  { aliveEnv := { pidRead := .ok ['1', '2'], findProcessErr := false, probeRes := .ok },
    createStdoutErr := false, createStderrErr := false, startErr := false,
    pid := 42, writePidErr := false }

/-- Witness for `startProcess_already_running`. -/
theorem startProcess_already_running_witness :
    startProcess "ipfs" "daemon" [] "/n" [] seAlive =
      (.error "node is already running", []) :=
  startProcess_already_running "ipfs" "daemon" [] "/n" [] seAlive (by decide)

/-- C6 (amended): on every successful launch, standard output and
standard error are redirected to dedicated files `daemon.stdout` and
`daemon.stderr` inside the node directory — created with `os.Create`,
i.e. created anew or *truncated*, not opened for append — and the fork
carries working directory `dir` and the environment handed in by the
environment builder. -/
theorem startProcess_redirection (bin dcmd : String) (args : List String)
    (dir : String) (env : List EnvEntry) (se : StartEnv)
    (h : (startProcess bin dcmd args dir env se).1 = .ok ()) :
    startProcess bin dcmd args dir env se = (.ok (),
      [Ev.createFile (dir ++ "/daemon.stdout") .truncate,
       Ev.createFile (dir ++ "/daemon.stderr") .truncate,
       Ev.fork bin dcmd args dir env (dir ++ "/daemon.stdout") (dir ++ "/daemon.stderr"),
       Ev.writePid se.pid]) :=
  startProcess_ok_trace bin dcmd args dir env se h

/-- C6 counterexample: at a concrete successful launch the log files are
created in truncate mode; no append-mode creation appears in the trace,
refuting the "append-created" wording. -/
theorem startProcess_append_counterexample :
    startProcess "ipfs" "daemon" [] "/n" [] seOk = (.ok (),
      [Ev.createFile "/n/daemon.stdout" .truncate,
       Ev.createFile "/n/daemon.stderr" .truncate,
       Ev.fork "ipfs" "daemon" [] "/n" [] "/n/daemon.stdout" "/n/daemon.stderr",
       Ev.writePid 42]) ∧
    Ev.createFile "/n/daemon.stdout" FileMode.append ∉
      (startProcess "ipfs" "daemon" [] "/n" [] seOk).2 ∧
    Ev.createFile "/n/daemon.stderr" FileMode.append ∉
      (startProcess "ipfs" "daemon" [] "/n" [] seOk).2 := by
  refine ⟨?_, ?_, ?_⟩ <;> decide

/-- Witness for `startProcess_redirection` at the all-good environment. -/
theorem startProcess_redirection_witness :
    startProcess "go-filecoin" "daemon" [] "/m" [] seOk = (.ok (),
      [Ev.createFile ("/m" ++ "/daemon.stdout") .truncate,
       Ev.createFile ("/m" ++ "/daemon.stderr") .truncate,
       Ev.fork "go-filecoin" "daemon" [] "/m" [] ("/m" ++ "/daemon.stdout")
         ("/m" ++ "/daemon.stderr"),
       Ev.writePid 42]) :=
  startProcess_redirection "go-filecoin" "daemon" [] "/m" [] seOk (by decide)

/-! ## `LocalNode.Start` (localnode.go:147-172) -/

/-- `(*LocalNode).Start` (localnode.go:147-172): build the daemon
environment, launch via `startProcess`, then load the on-disk config
(`serial.Load`, go-ipfs code outside this repository — its result is an
input: `.ok peerID` carries `cfg.Identity.PeerID`), record the peer
identity, and wait on the API (`waitOnAPI`, repository code outside
`util/` — its result is likewise an input).  Returns the Go error, the
node (with any mutation performed so far) and the event trace. -/
def LocalNode.Start (n : LocalNode) (args : List String) (environ : List EnvEntry)
    (se : StartEnv) (configLoad : Except String String) (waitRes : Except String Unit) :
    Except String Unit × LocalNode × List Ev :=
  match startProcess "ipfs" "daemon" args n.Dir (n.envForDaemon environ) se with
  | (.error e, tr) => (.error e, n, tr)
  | (.ok (), tr) =>
    match configLoad with
    | .error e => (.error e, n, tr)
    | .ok peerID =>
      match waitRes with
      | .error e => (.error e, { n with PeerID := peerID }, tr)
      | .ok () => (.ok (), { n with PeerID := peerID }, tr)

/-- C9: when the fork succeeded and the PID file was written but the
subsequent config load fails, `Start` returns that error, leaves the
node untouched, and performs no rollback: the trace still contains the
fork's PID-file write, and no kill signal or PID-file removal ever
happens on this path. -/
theorem localStart_config_error (n : LocalNode) (args : List String)
    (environ : List EnvEntry) (se : StartEnv) (e : String) (waitRes : Except String Unit)
    (hstart : (startProcess "ipfs" "daemon" args n.Dir (n.envForDaemon environ) se).1 =
      .ok ()) :
    LocalNode.Start n args environ se (.error e) waitRes =
      (.error e, n,
        (startProcess "ipfs" "daemon" args n.Dir (n.envForDaemon environ) se).2) ∧
    Ev.writePid se.pid ∈ (LocalNode.Start n args environ se (.error e) waitRes).2.2 ∧
    Ev.rmPidFile ∉ (LocalNode.Start n args environ se (.error e) waitRes).2.2 ∧
    Ev.sigint ∉ (LocalNode.Start n args environ se (.error e) waitRes).2.2 ∧
    Ev.sigquit ∉ (LocalNode.Start n args environ se (.error e) waitRes).2.2 ∧
    Ev.sigkill ∉ (LocalNode.Start n args environ se (.error e) waitRes).2.2 := by
  have htr := startProcess_ok_trace "ipfs" "daemon" args n.Dir (n.envForDaemon environ)
    se hstart
  refine ⟨?_, ?_, ?_, ?_, ?_, ?_⟩ <;> simp [LocalNode.Start, htr]

/-- Witness for `localStart_config_error`. -/
theorem localStart_config_error_witness :
    LocalNode.Start (LocalNode.mk "/n" "") [] [] seOk (.error "boom") (.ok ()) =
      (.error "boom", LocalNode.mk "/n" "",
        (startProcess "ipfs" "daemon" [] "/n"
          ((LocalNode.mk "/n" "").envForDaemon []) seOk).2) :=
  (localStart_config_error (LocalNode.mk "/n" "") [] [] seOk "boom" (.ok ())
    (by decide)).1

/-! ## `FilecoinNode.Start` and its readiness wait (localfilecoin.go:40-66) -/

/-- The identity-query retry loop (localfilecoin.go:54-62): up to the
given number of attempts, indexed from `i`; the first successful
`RunCmd("go-filecoin", "id", "--format=<id>")` ends the loop and its
output is recorded trimmed (`strings.TrimSpace`); each failure prints
and sleeps 100 ms.  `idRes i` is the outcome of the `i`-th query. -/
def idRetry (res : Nat → Except String String) : Nat → Nat → Option String × List Ev
  | _, 0 => (none, [])
  | i, r + 1 =>
    match res i with
    | .ok s => (some s.trim, [Ev.idQuery i])
    | .error _ =>
      let t := idRetry res (i + 1) r
      (t.1, Ev.idQuery i :: Ev.sleep 100 :: t.2)

/-- The trace of `r` failed identity attempts starting at index `i`:
each query is followed by a 100 ms sleep. -/
def idAttemptTrace : Nat → Nat → List Ev
  | _, 0 => []
  | i, r + 1 => Ev.idQuery i :: Ev.sleep 100 :: idAttemptTrace (i + 1) r

/-- `(*FilecoinNode).Start` (localfilecoin.go:40-66): build the
environment, prepend the fixed API/swarm flags, launch, sleep 100 ms,
then run the identity retry loop (10 attempts); the function returns
without error whether or not an identity was obtained. -/
def FilecoinNode.Start (fn : FilecoinNode) (args : List String) (environ : List EnvEntry)
    (se : StartEnv) (idRes : Nat → Except String String) :
    Except String FilecoinNode × List Ev :=
  match startProcess "go-filecoin" "daemon"
      (("--cmdapiaddr=" ++ fn.ApiPort) :: "--swarmlisten=/ip4/127.0.0.1/tcp/0" :: args)
      fn.Dir (fn.envForDaemon environ) se with
  | (.error e, tr) => (.error e, tr)
  | (.ok (), tr) =>
    match (idRetry idRes 0 10).1 with
    | some s => (.ok { fn with PeerID := s }, tr ++ Ev.sleep 100 :: (idRetry idRes 0 10).2)
    | none => (.ok fn, tr ++ Ev.sleep 100 :: (idRetry idRes 0 10).2)

/-- A retry loop whose every attempt fails returns no identity after
performing every attempt, sleeping 100 ms after each. -/
theorem idRetry_all_fail (res : Nat → Except String String) :
    ∀ r i, (∀ j, j < r → ∃ e, res (i + j) = .error e) →
      idRetry res i r = (none, idAttemptTrace i r) := by
  intro r
  induction r with
  | zero => intro i _; simp [idRetry, idAttemptTrace]
  | succ m ih =>
    intro i h
    obtain ⟨e0, he0⟩ := h 0 (Nat.succ_pos m)
    rw [Nat.add_zero] at he0
    have hrest : ∀ j, j < m → ∃ e, res (i + 1 + j) = .error e := by
      intro j hj
      obtain ⟨e1, he1⟩ := h (j + 1) (by omega)
      exact ⟨e1, by rw [← he1]; congr 1; omega⟩
    simp [idRetry, he0, ih (i + 1) hrest, idAttemptTrace]

/-- A retry loop whose first success is attempt `k` (after `k` failures)
stops there and returns the trimmed output. -/
theorem idRetry_first_ok (res : Nat → Except String String) :
    ∀ k r i s, k < r → (∀ j, j < k → ∃ e, res (i + j) = .error e) →
      res (i + k) = .ok s →
      idRetry res i r = (some s.trim, idAttemptTrace i k ++ [Ev.idQuery (i + k)]) := by
  intro k
  induction k with
  | zero =>
    intro r i s hr _ hok
    obtain ⟨m, rfl⟩ : ∃ m, r = m + 1 := ⟨r - 1, by omega⟩
    rw [Nat.add_zero] at hok
    simp [idRetry, hok, idAttemptTrace]
  | succ k ih =>
    intro r i s hr hfail hok
    obtain ⟨m, rfl⟩ : ∃ m, r = m + 1 := ⟨r - 1, by omega⟩
    obtain ⟨e0, he0⟩ := hfail 0 (Nat.succ_pos k)
    rw [Nat.add_zero] at he0
    have hfail' : ∀ j, j < k → ∃ e, res (i + 1 + j) = .error e := by
      intro j hj
      obtain ⟨e1, he1⟩ := hfail (j + 1) (by omega)
      exact ⟨e1, by rw [← he1]; congr 1; omega⟩
    have hok' : res (i + 1 + k) = .ok s := by rw [← hok]; congr 1; omega
    have := ih m (i + 1) s (by omega) hfail' hok'
    simp [idRetry, he0, this, idAttemptTrace, Nat.add_assoc, Nat.add_comm 1 k]

/-- C7: after a successful launch the readiness waiter sleeps 100 ms and
queries the identity up to 10 times with 100 ms between attempts.  If
all 10 attempts fail, the node is returned unchanged (its peer identity
stays whatever it was — empty for a fresh node) and `Start` still
returns without error; if attempt `k` is the first success, its trimmed
output becomes the node's peer identity. -/
theorem filecoinStart_readiness (fn : FilecoinNode) (args : List String)
    (environ : List EnvEntry) (se : StartEnv) (idRes : Nat → Except String String)
    (hstart : (startProcess "go-filecoin" "daemon"
        (("--cmdapiaddr=" ++ fn.ApiPort) :: "--swarmlisten=/ip4/127.0.0.1/tcp/0" :: args)
        fn.Dir (fn.envForDaemon environ) se).1 = .ok ()) :
    ((∀ j, j < 10 → ∃ e, idRes j = .error e) →
      FilecoinNode.Start fn args environ se idRes =
        (.ok fn,
          (startProcess "go-filecoin" "daemon"
            (("--cmdapiaddr=" ++ fn.ApiPort) ::
              "--swarmlisten=/ip4/127.0.0.1/tcp/0" :: args)
            fn.Dir (fn.envForDaemon environ) se).2 ++
          Ev.sleep 100 :: idAttemptTrace 0 10)) ∧
    (∀ k s, k < 10 → (∀ j, j < k → ∃ e, idRes j = .error e) → idRes k = .ok s →
      FilecoinNode.Start fn args environ se idRes =
        (.ok { fn with PeerID := s.trim },
          (startProcess "go-filecoin" "daemon"
            (("--cmdapiaddr=" ++ fn.ApiPort) ::
              "--swarmlisten=/ip4/127.0.0.1/tcp/0" :: args)
            fn.Dir (fn.envForDaemon environ) se).2 ++
          Ev.sleep 100 :: (idAttemptTrace 0 k ++ [Ev.idQuery k]))) := by
  have htr := startProcess_ok_trace "go-filecoin" "daemon"
    (("--cmdapiaddr=" ++ fn.ApiPort) :: "--swarmlisten=/ip4/127.0.0.1/tcp/0" :: args)
    fn.Dir (fn.envForDaemon environ) se hstart
  constructor
  · intro hfail
    have hid := idRetry_all_fail idRes 10 0 (by intro j hj; simpa using hfail j hj)
    simp [FilecoinNode.Start, htr, hid]
  · intro k s hk hfail hok
    have hid := idRetry_first_ok idRes k 10 0 s hk (by intro j hj; simpa using hfail j hj)
      (by simpa using hok)
    simp [FilecoinNode.Start, htr, hid]

/-- A Filecoin node for witnesses. -/
def fnW : FilecoinNode := { Dir := "/f", PeerID := "", ApiPort := "1234" }

/-- Witness for `filecoinStart_readiness`: every identity query fails,
`Start` still returns `.ok` with the peer identity left empty. -/
theorem filecoinStart_readiness_witness :
    FilecoinNode.Start fnW [] [] seOk (fun _ => .error "no") =
      (.ok fnW,
        (startProcess "go-filecoin" "daemon"
          (("--cmdapiaddr=" ++ fnW.ApiPort) ::
            "--swarmlisten=/ip4/127.0.0.1/tcp/0" :: [])
          fnW.Dir (fnW.envForDaemon []) seOk).2 ++
        Ev.sleep 100 :: idAttemptTrace 0 10) :=
  (filecoinStart_readiness fnW [] [] seOk (fun _ => .error "no") (by decide)).1
    (fun _ _ => ⟨"no", rfl⟩)

/-! ## Shells (localnode.go:59-83, localfilecoin.go:114-138) -/

/-- A node as seen through the registry (`LoadNodes`, repository code
outside `util/`): the lifecycle manager only consumes its
`GetPeerID()`. -/
structure RegNode where
  peerID : String
deriving DecidableEq, Repr

/-- The `for i, n := range nodes` loop of both `Shell`s: build one
`NODE<i>=<peerID>` entry per registry node, failing on the first node
whose peer identity is empty. -/
def nodeIdEnvs : Nat → List RegNode → Except String (List String)
  | _, [] => .ok []
  | i, nd :: rest =>
    if nd.peerID == "" then .error "failed to check peerID"
    else
      match nodeIdEnvs (i + 1) rest with
      | .ok l => .ok (("NODE" ++ toString i ++ "=" ++ nd.peerID) :: l)
      | .error e => .error e

/-- Ambient state a `Shell` call reads: `os.Getenv("SHELL")`,
`os.Environ()`, and the registry load result. -/
structure ShellCtx where
  shell : String
  environ : List String
  loaded : Except String (List RegNode)

/-- `(*LocalNode).Shell` (localnode.go:59-83): on success, the value is
the `syscall.Exec` call (shell path, argv, environment) that replaces
the process; an error return happens before any exec. -/
def LocalNode.Shell (n : LocalNode) (ctx : ShellCtx) :
    Except String (String × List String × List String) :=
  if ctx.shell == "" then .error "couldnt find shell!"
  else
    match ctx.loaded with
    | .error e => .error e
    | .ok nodes =>
      match nodeIdEnvs 0 nodes with
      | .error e => .error e
      | .ok nes =>
        .ok (ctx.shell, [ctx.shell], ctx.environ ++ ("IPFS_PATH=" ++ n.Dir) :: nes)

/-- `(*FilecoinNode).Shell` (localfilecoin.go:114-138): identical to the
local-node shell except that the data-directory variable is `FIL_PATH`. -/
def FilecoinNode.Shell (fn : FilecoinNode) (ctx : ShellCtx) :
    Except String (String × List String × List String) :=
  if ctx.shell == "" then .error "couldnt find shell!"
  else
    match ctx.loaded with
    | .error e => .error e
    | .ok nodes =>
      match nodeIdEnvs 0 nodes with
      | .error e => .error e
      | .ok nes =>
        .ok (ctx.shell, [ctx.shell], ctx.environ ++ ("FIL_PATH=" ++ fn.Dir) :: nes)

/-- With a node of empty peer identity among the loaded nodes, the env
loop fails. -/
theorem nodeIdEnvs_empty_peer :
    ∀ nodes i, (∃ nd ∈ nodes, nd.peerID = "") →
      nodeIdEnvs i nodes = .error "failed to check peerID" := by
  intro nodes
  induction nodes with
  | nil => intro i h; simp at h
  | cons nd rest ih =>
    intro i h
    by_cases h0 : nd.peerID = ""
    · simp [nodeIdEnvs, h0]
    · have hex : ∃ x ∈ rest, x.peerID = "" := by
        rcases h with ⟨x, hx, hxe⟩
        rcases List.mem_cons.mp hx with rfl | hmem
        · exact absurd hxe h0
        · exact ⟨x, hmem, hxe⟩
      have hbeq : (nd.peerID == "") = false := by simpa using h0
      simp [nodeIdEnvs, hbeq, ih (i + 1) hex]

/-- With every peer identity non-empty, the env loop yields one numbered
variable per node, in registry order. -/
theorem nodeIdEnvs_ok :
    ∀ nodes i, (∀ nd ∈ nodes, nd.peerID ≠ "") →
      nodeIdEnvs i nodes = .ok ((nodes.enumFrom i).map
        (fun p => "NODE" ++ toString p.1 ++ "=" ++ p.2.peerID)) := by
  intro nodes
  induction nodes with
  | nil => intro i _; simp [nodeIdEnvs]
  | cons nd rest ih =>
    intro i h
    have h0 : nd.peerID ≠ "" := h nd (by simp)
    have hbeq : (nd.peerID == "") = false := by simpa using h0
    have hr := ih (i + 1) (fun x hx => h x (by simp [hx]))
    simp [nodeIdEnvs, hbeq, hr, List.enumFrom]

/-- C8: when identity broadcasting is requested, an empty peer identity
among the loaded nodes makes both shells fail before any exec; with all
identities present, the exec environment is the ambient environment plus
the active node's data-directory variable plus one `NODE<i>` variable
per registry node carrying its peer identity. -/
theorem shell_identity_broadcast (ctx : ShellCtx) (nodes : List RegNode)
    (n : LocalNode) (fn : FilecoinNode)
    (hsh : (ctx.shell == "") = false) (hl : ctx.loaded = .ok nodes) :
    ((∃ nd ∈ nodes, nd.peerID = "") →
      n.Shell ctx = .error "failed to check peerID" ∧
      fn.Shell ctx = .error "failed to check peerID") ∧
    ((∀ nd ∈ nodes, nd.peerID ≠ "") →
      n.Shell ctx = .ok (ctx.shell, [ctx.shell],
        ctx.environ ++ ("IPFS_PATH=" ++ n.Dir) ::
          (nodes.enumFrom 0).map
            (fun p => "NODE" ++ toString p.1 ++ "=" ++ p.2.peerID)) ∧
      fn.Shell ctx = .ok (ctx.shell, [ctx.shell],
        ctx.environ ++ ("FIL_PATH=" ++ fn.Dir) ::
          (nodes.enumFrom 0).map
            (fun p => "NODE" ++ toString p.1 ++ "=" ++ p.2.peerID))) := by
  constructor
  · intro hex
    have hne := nodeIdEnvs_empty_peer nodes 0 hex
    constructor <;> simp [LocalNode.Shell, FilecoinNode.Shell, hsh, hl, hne]
  · intro hall
    have hok := nodeIdEnvs_ok nodes 0 hall
    constructor <;> simp [LocalNode.Shell, FilecoinNode.Shell, hsh, hl, hok]

/-- Ambient state for the shell witness: two registered nodes with peer
identities `A` and `B`. -/
def ctxW : ShellCtx :=
  { shell := "/bin/sh", environ := [],
    loaded := .ok [{ peerID := "A" }, { peerID := "B" }] }

/-- Witness for `shell_identity_broadcast`: with all identities present
the local-node shell execs with `IPFS_PATH` plus `NODE0`/`NODE1`. -/
theorem shell_identity_broadcast_witness :
    (LocalNode.mk "/n" "").Shell ctxW =
      .ok (ctxW.shell, [ctxW.shell],
        ctxW.environ ++ ("IPFS_PATH=" ++ (LocalNode.mk "/n" "").Dir) ::
          ((([{ peerID := "A" }, { peerID := "B" }] : List RegNode).enumFrom 0).map
            (fun p => "NODE" ++ toString p.1 ++ "=" ++ p.2.peerID))) :=
  ((shell_identity_broadcast ctxW [{ peerID := "A" }, { peerID := "B" }]
      (LocalNode.mk "/n" "") fnW (by decide) rfl).2 (by decide)).1
